import Mathlib

/-!
Verification of the HS-code classification core (`fullimpl.py`, `api_server.py`).

The Python source is shallowly embedded: pure fragments become Lean functions,
float scores become rationals (`ℚ`), `raise` becomes `Except.error`, and the
external embedding / LLM backends (explicitly out of scope for the spec, which
treats them as black boxes) become function parameters.  Python strings are
Lean `String`s; the Python string operations used by the source (`in`,
`split()`, `lower()`, `endswith`, `strip()`) are re-implemented structurally
over `String.data` so that all definitions are executable.
-/

/-- `needle in hay` on Python strings: contiguous-substring test. -/
def strContains (hay needle : String) : Bool :=
  decide (needle.data <:+: hay.data)

/-- `s.endswith(suffix)` on Python strings. -/
def strEndsWith (s suffix : String) : Bool :=
  decide (suffix.data <:+ s.data)

/-- `s.lower()` (the source only feeds ASCII-ish text through it). -/
def lowerStr (s : String) : String :=
  String.mk (s.data.map Char.toLower)

/-- Whitespace characters recognised by Python `str.split()`. -/
def isPySpace (c : Char) : Bool :=
  c = ' ' || c = '\t' || c = '\n' || c = '\r'

/-- Helper for `wordsOf`: split a character list on whitespace runs. -/
def splitWSAux : List Char → List Char → List (List Char)
  | [], [] => []
  | [], acc => [acc.reverse]
  | c :: rest, acc =>
    if isPySpace c then
      (if acc = [] then splitWSAux rest [] else acc.reverse :: splitWSAux rest [])
    else splitWSAux rest (c :: acc)

/-- `s.split()`: split on whitespace runs, dropping empty pieces. -/
def wordsOf (s : String) : List String :=
  (splitWSAux s.data []).map String.mk

/-- `s.strip()`: drop leading and trailing whitespace. -/
def strStrip (s : String) : String :=
  String.mk (((s.data.dropWhile isPySpace).reverse.dropWhile isPySpace).reverse)

/-- Helper for `strSplitOn`: split a character list on a (nonempty) separator. -/
def splitSepAux (sep : List Char) : List Char → List Char → List (List Char)
  | [], acc => [acc.reverse]
  | c :: rest, acc =>
    if sep <+: (c :: rest) then
      acc.reverse :: splitSepAux sep (List.drop (sep.length - 1) rest) []
    else
      splitSepAux sep rest (c :: acc)
termination_by l _ => l.length
decreasing_by
  · simp only [List.length_cons, List.length_drop]
    omega
  · simp

/-- `s.split(sep)` for a nonempty separator string. -/
def strSplitOn (s sep : String) : List String :=
  (splitSepAux sep.data s.data []).map String.mk

/-- `re.sub(r'[^\w]', '', word)`: keep only word characters (ASCII view). -/
def cleanWord (w : String) : String :=
  String.mk (w.data.filter (fun c => c.isAlphanum || c = '_'))

/-- A scored HS-code candidate (`HSCode` dataclass in `fullimpl.py`). -/
structure HSCode where
  code : String
  description : String
  similarity_score : ℚ
deriving DecidableEq

/-- One question/answer exchange of the conversation history. -/
structure QA where
  question : String
  answer : String
deriving DecidableEq

/-- `ConversationState` dataclass in `fullimpl.py`. -/
structure ConversationState where
  product_description : String
  qa_history : List QA
  current_candidates : List HSCode
  iteration : ℕ
deriving DecidableEq

/-- A leaf node as the search engine sees it: its code, its name and its
cached full path (`get_full_path()`). -/
structure LeafInfo where
  code : String
  name : String
  path : String
deriving DecidableEq

/-- `negative_indicators` set in `_extract_query_features`. -/
def negative_indicators : List String :=
  ["not", "without", "except", "excluding", "no", "non", "anti", "un"]

/-- `tech_contradictions` table in `_extract_query_features`. -/
def tech_contradictions : List (String × List String) :=
  [("oled", ["lcd", "led", "plasma", "crt"]),
   ("lcd", ["oled", "plasma", "crt"]),
   ("led", ["oled", "lcd", "plasma", "crt"]),
   ("wireless", ["wired", "cable", "ethernet"]),
   ("wired", ["wireless", "wifi", "bluetooth"]),
   ("digital", ["analog", "analogue"]),
   ("analog", ["digital"]),
   ("organic", ["synthetic", "artificial"]),
   ("synthetic", ["organic", "natural"]),
   ("automatic", ["manual"]),
   ("manual", ["automatic", "auto"])]

/-- `_get_plural_forms`: plural/singular variants of a word. -/
def get_plural_forms (word : String) : List String :=
  if strEndsWith word "s" && decide (3 < word.length) then
    [String.mk (word.data.take (word.length - 1))]
  else if strEndsWith word "es" && decide (4 < word.length) then
    [String.mk (word.data.take (word.length - 2))]
  else if strEndsWith word "ies" && decide (5 < word.length) then
    [String.mk (word.data.take (word.length - 3)) ++ "y"]
  else
    [word ++ "s"]
      ++ (if strEndsWith word "y" then
            [String.mk (word.data.take (word.length - 1)) ++ "ies"] else [])
      ++ (if strEndsWith word "sh" || strEndsWith word "ch" || strEndsWith word "x"
            || strEndsWith word "z" || strEndsWith word "o" then
            [word ++ "es"] else [])

/-- The result of `_extract_query_features`. -/
structure QueryFeatures where
  positive : List String
  negative : List String
  contradictions : List (String × List String)
deriving DecidableEq

/-- Word-by-word loop of `_extract_query_features`; `prev` is the previous
(uncleaned) word, used for the negative-indicator look-behind. -/
def extractFeaturesAux : Option String → List String → QueryFeatures
  | _, [] => ⟨[], [], []⟩
  | prev, w :: rest =>
    let tail := extractFeaturesAux (some w) rest
    let word := cleanWord w
    if word.length < 2 then tail
    else if (match prev with | some p => decide (p ∈ negative_indicators) | none => false) then
      { tail with negative := word :: (get_plural_forms word ++ tail.negative) }
    else
      { positive := word :: (get_plural_forms word ++ tail.positive),
        negative := tail.negative,
        contradictions :=
          match List.lookup word tech_contradictions with
          | some opps => (word, opps) :: tail.contradictions
          | none => tail.contradictions }

/-- `_extract_query_features(query_lower)`. -/
def extract_query_features (query_lower : String) : QueryFeatures :=
  extractFeaturesAux none (wordsOf query_lower)

/-- `_calculate_keyword_boost` over the positive word list. -/
def calculate_keyword_boost : List String → String → String → ℚ
  | [], _, _ => 0
  | w :: rest, node_text, node_path =>
    (if 2 < w.length then
       if strContains node_text w then (0.25 : ℚ)
       else if strContains node_path w then (0.15 : ℚ)
       else if (wordsOf node_text).any (fun part => strContains part w) then (0.1 : ℚ)
       else 0
     else 0) + calculate_keyword_boost rest node_text node_path

/-- Negative-keyword part of `_calculate_negative_penalty`. -/
def negativeWordPenalty : List String → String → String → ℚ
  | [], _, _ => 0
  | w :: rest, node_text, node_path =>
    (if 2 < w.length then
       if strContains node_text w then (0.4 : ℚ)
       else if strContains node_path w then (0.2 : ℚ)
       else 0
     else 0) + negativeWordPenalty rest node_text node_path

/-- Penalty contributed by one contradiction pair: 0.6 per opposite found in
the node text or path. -/
def contradictionPairPenalty (opps : List String) (node_text node_path : String) : ℚ :=
  match opps with
  | [] => 0
  | c :: rest =>
    (if strContains node_text c || strContains node_path c then (0.6 : ℚ) else 0)
      + contradictionPairPenalty rest node_text node_path

/-- Contradiction part of `_calculate_negative_penalty`. -/
def contradictionPenalty : List (String × List String) → String → String → ℚ
  | [], _, _ => 0
  | (_, opps) :: rest, node_text, node_path =>
    contradictionPairPenalty opps node_text node_path
      + contradictionPenalty rest node_text node_path

/-- `_calculate_negative_penalty(query_words, node_text, node_path)`. -/
def calculate_negative_penalty (qw : QueryFeatures) (node_text node_path : String) : ℚ :=
  negativeWordPenalty qw.negative node_text node_path
    + contradictionPenalty qw.contradictions node_text node_path

/-- `_extract_negated_terms(question, answer)`. -/
def extract_negated_terms (question : String) (_answer : String) : List String :=
  let question_words := wordsOf (lowerStr question)
  (["bulk", "cider", "dried", "seasonal", "september", "december", "shipped", "shipping"]).filter
    (fun term => decide (term ∈ question_words))

/-- `_extract_alternatives(question)`: words around a literal " or ". -/
def extract_alternatives (question : String) : List String :=
  if strContains question " or " then
    match strSplitOn (lowerStr question) " or " with
    | p0 :: p1 :: _ =>
      let first_alt := ((wordsOf p0).getLast?).getD ""
      let second_alt := ((wordsOf p1).head?).getD ""
      (if first_alt ≠ "" && decide (2 < first_alt.length) then [first_alt] else [])
        ++ (if second_alt ≠ "" && decide (2 < second_alt.length) then [second_alt] else [])
    | _ => []
  else []

/-- Per-exchange body of `_calculate_qa_contradiction_penalty`. -/
def qaPenaltyOfExchange (qa : QA) (combined_node_text : String) : ℚ :=
  let question := lowerStr qa.question
  let answer := lowerStr qa.answer
  let pat1 :=
    if strContains question "are these" || strContains question "is this"
        || strContains question "do you have" then
      if answer = "no" || answer = "not" || answer = "none" || answer = "never" then
        ((extract_negated_terms question answer).filter
          (fun term => strContains combined_node_text term)).length * (0.8 : ℚ)
      else if strContains question "or" then
        let alternatives := extract_alternatives question
        let chosen := strStrip answer
        let rejected := alternatives.filter
          (fun alt => alt ≠ chosen && !(strContains chosen alt))
        ((rejected.filter (fun r => strContains combined_node_text r)).length : ℚ) * (0.7 : ℚ)
      else 0
    else 0
  let pat3 :=
    if strContains answer "bulk" && strContains answer "no" then
      if strContains combined_node_text "bulk" then (0.9 : ℚ) else 0
    else 0
  let pat4 :=
    if strContains combined_node_text "september" || strContains combined_node_text "december" then
      if strContains answer "no"
          && (strContains question "september" || strContains question "december") then
        (0.8 : ℚ)
      else 0
    else 0
  let pat5 :=
    if strContains combined_node_text "cider" then
      if strContains answer "regular" || strContains answer "eating"
          || (strContains answer "not" && strContains question "cider") then
        (0.9 : ℚ)
      else 0
    else 0
  pat1 + pat3 + pat4 + pat5

/-- `_calculate_qa_contradiction_penalty(qa_history, node_text, node_path)`. -/
def calculate_qa_contradiction_penalty
    (qa_history : List QA) (node_text node_path : String) : ℚ :=
  let combined := lowerStr (node_text ++ " " ++ node_path)
  (qa_history.map (fun qa => qaPenaltyOfExchange qa combined)).sum

/-- Lines 262-266 of `search_hs_codes`: boost cap, penalty subtraction and
the final clamp of a node score to [0, 1]. -/
def finalScoreOf (base boost penalty : ℚ) : ℚ :=
  max 0 (min 1 (base + min boost (0.4 : ℚ) - penalty))

/-- The per-node score adjustment performed inside the `search_hs_codes`
loop: keyword boost, negative penalty, Q&A contradiction penalty, clamp. -/
def nodeAdjustedScore (base : ℚ) (query_words : QueryFeatures) (qa_history : List QA)
    (node_text node_path : String) : ℚ :=
  let keyword_boost := calculate_keyword_boost query_words.positive node_text node_path
  let negative_penalty :=
    calculate_negative_penalty query_words node_text node_path
      + (if qa_history ≠ [] then
           calculate_qa_contradiction_penalty qa_history node_text node_path
         else 0)
  finalScoreOf base keyword_boost negative_penalty

/-- `_get_adaptive_threshold(similarities, base_threshold)`. -/
def get_adaptive_threshold (similarities : List ℚ) (base_threshold : ℚ) : ℚ :=
  let high_scores := similarities.countP (fun s => decide (base_threshold ≤ s))
  if 50 < high_scores then min (0.8 : ℚ) (base_threshold + 0.2)
  else if 20 < high_scores then min (0.75 : ℚ) (base_threshold + 0.1)
  else base_threshold

/-- `_apply_harsh_filtering(results, query_context)`; the query argument is
unused in the source as well. -/
def apply_harsh_filtering (results : List HSCode) (_query_context : String) : List HSCode :=
  if results.length ≤ 10 then results
  else if 30 < results.length then
    match results with
    | [] => []
    | top :: _ =>
      (results.filter
        (fun r => decide (top.similarity_score - 0.15 ≤ r.similarity_score))).take 20
  else results.take 25

/-- State of `HSCodeSemanticSearch` relevant to searching: the leaf list and
the (possibly absent) embedding matrix.  The sentence-transformer model and
`cosine_similarity` are external black boxes; a search call receives their
composite `encode_sims : query ↦ base cosine similarities per leaf row` as a
parameter. -/
structure SemanticSearch where
  leaf_nodes : List LeafInfo
  embeddings : Option (List (List ℚ))

/-- `HSCodeSemanticSearch.search_hs_codes`: guard on missing embeddings,
per-node score adjustment, adaptive threshold, threshold filter, stable
descending sort, harsh filtering.  A Python `raise` is `Except.error`. -/
def search_hs_codes (st : SemanticSearch) (encode_sims : String → List ℚ)
    (query_context : String) (similarity_threshold : ℚ)
    (qa_history : List QA) : Except String (List HSCode) :=
  match st.embeddings with
  | none => .error "Embeddings not computed. Call compute_embeddings() first."
  | some _ =>
    let semantic_similarities := encode_sims query_context
    let query_words := extract_query_features (lowerStr query_context)
    -- the loop mutates `semantic_similarities[i]` in place; the row/leaf
    -- lengths agree by the embedding-row invariant, modelled by `zip`
    let adjusted := (semantic_similarities.zip st.leaf_nodes).map
      (fun p => nodeAdjustedScore p.1 query_words qa_history
        (lowerStr p.2.name) (lowerStr (p.2.path)))
    let adjusted_threshold := get_adaptive_threshold adjusted similarity_threshold
    let results := (adjusted.zip st.leaf_nodes).filterMap
      (fun p => if adjusted_threshold ≤ p.1
        then some ⟨p.2.code, p.2.name, p.1⟩ else none)
    let sorted := results.mergeSort
      (fun a b => decide (b.similarity_score ≤ a.similarity_score))
    .ok (apply_harsh_filtering sorted query_context)

/-- One match returned by the API server's hybrid search. -/
structure SearchMatch where
  index : ℕ
  rank : ℕ
  similarity : ℚ
deriving DecidableEq

/-- State of `HybridSemanticSearch` (`api_server.py`): loaded embeddings and
whether the sentence-transformer model is (still) available after
`load_model` — `model_available ∧ model is not None` in the source. -/
structure HybridSearch where
  embeddings : Option (List (List ℚ))
  model_available : Bool

/-- Result-collection loop of `search_similar_codes`: walk the sorted index
list, stop once `top_k` matches are collected, keep scores above the
threshold; `rank` is the 1-based enumeration position. -/
def collectMatches (sims : List ℚ) (threshold : ℚ) (top_k : ℕ) :
    List ℕ → ℕ → List SearchMatch → List SearchMatch
  | [], _, acc => acc.reverse
  | idx :: rest, i, acc =>
    if top_k ≤ acc.length then acc.reverse
    else
      let score := sims.getD idx 0
      if threshold ≤ score then
        collectMatches sims threshold top_k rest (i + 1) (⟨idx, i + 1, score⟩ :: acc)
      else
        collectMatches sims threshold top_k rest (i + 1) acc

/-- `HybridSemanticSearch.search_similar_codes`: raise when embeddings are
not loaded, degrade to an empty list when the model is unavailable,
otherwise rank all rows by similarity (``np.argsort(similarities)[::-1]``)
and collect the top matches. -/
def search_similar_codes (st : HybridSearch) (encode_sims : String → List ℚ)
    (query : String) (top_k : ℕ) (similarity_threshold : ℚ) :
    Except String (List SearchMatch) :=
  match st.embeddings with
  | none => .error "Embeddings not loaded. Call load_embeddings() first."
  | some _ =>
    if st.model_available = false then .ok []
    else
      let similarities := encode_sims query
      let sorted_indices :=
        ((List.range similarities.length).mergeSort
          (fun i j => decide (similarities.getD i 0 ≤ similarities.getD j 0))).reverse
      .ok (collectMatches similarities similarity_threshold top_k sorted_indices 0 [])

/-- The `for i in range(0, len(texts), batch_size)` slicing loop of
`compute_embeddings` with `batch_size = 100`. -/
def toBatches : List String → List (List String)
  | [] => []
  | t :: ts => (t :: ts.take 99) :: toBatches (ts.drop 99)
termination_by l => l.length
decreasing_by
  simp only [List.length_cons, List.length_drop]
  omega

/-- Embedding input text for one leaf node: code + name + up to two ancestor
labels (`path_parts[-3:-1]`) for context. -/
def embedText (node : LeafInfo) : String :=
  let path_parts := strSplitOn node.path " → "
  let key_context :=
    if 2 < path_parts.length then
      String.intercalate " " ((path_parts.dropLast).drop (path_parts.dropLast.length - 2))
    else ""
  strStrip (node.code ++ " " ++ node.name ++ " " ++ key_context)

/-- `HSCodeSemanticSearch.compute_embeddings`.  The pickle cache file is
modelled by `cache : Option (List (List ℚ))`: `some m` means the file named
by the (explicit or hash-derived) locator exists and deserialises to `m`,
`none` means it is missing or unreadable (the source recomputes on a failed
load).  The sentence-transformer model is the black-box `encode`. -/
def compute_embeddings (leaf_nodes : List LeafInfo) (encode : String → List ℚ)
    (cache : Option (List (List ℚ))) (embedding_file : Option String)
    (use_cached_only : Bool) (force_recompute : Bool) :
    Except String (List (List ℚ)) :=
  if use_cached_only then
    match embedding_file with
    | none => .error "use_cached_only=True but no embedding_file specified"
    | some _ =>
      match cache with
      | none => .error "Cached embeddings not found"
      | some m => .ok m
  else
    match cache with
    | some m => if force_recompute then
        .ok (((toBatches (leaf_nodes.map embedText)).map (fun b => b.map encode)).flatten)
      else .ok m
    | none =>
      .ok (((toBatches (leaf_nodes.map embedText)).map (fun b => b.map encode)).flatten)

/-- One row of the taxonomy table handed to `_build_tree`. -/
structure Row where
  level : Int
  code : String
  name : String
deriving DecidableEq

/-- `while stack and stack[-1].level >= level: stack.pop()` — the stack holds
`(row index, level)` pairs, head = top. -/
def popGE : List (ℕ × Int) → Int → List (ℕ × Int)
  | [], _ => []
  | (j, lj) :: rest, level => if level ≤ lj then popGE rest level else (j, lj) :: rest

/-- Row loop of `_build_tree`, returning each row's parent row index
(`none` = appended to `tree_data` as a new root).  `i` is the index of the
next row, `stack` the ancestor-candidate stack. -/
def buildTreeAux : List Row → ℕ → List (ℕ × Int) → List (Option ℕ)
  | [], _, _ => []
  | r :: rest, i, stack =>
    let stack' := popGE stack r.level
    let parent := stack'.head?.map Prod.fst
    parent :: buildTreeAux rest (i + 1) ((i, r.level) :: stack')

/-- `_build_tree(df)`: the parent assignment it produces, one entry per row. -/
def build_tree (rows : List Row) : List (Option ℕ) :=
  buildTreeAux rows 0 []

/-- Level of row `j` (0 when out of range, never consulted there). -/
def levelAt (rows : List Row) (j : ℕ) : Int :=
  (rows.map Row.level).getD j 0

/-- `HSCodeClassifier.check_convergence(state, prev_candidates)`.
`max_iterations` is 6 in the classifier.  The source's trailing
`if state.iteration < 2: return False` falls through to `return False`
either way, so the translation ends in `false`. -/
def check_convergence (max_iterations : ℕ) (state : ConversationState)
    (prev_candidates : List HSCode) : Bool :=
  if max_iterations ≤ state.iteration then true
  else
    let fewCheck : Bool :=
      match state.current_candidates with
      | [single] => decide ((0.9 : ℚ) < single.similarity_score)
      | [top, second] =>
        decide ((0.85 : ℚ) < top.similarity_score)
          && decide ((0.2 : ℚ) < top.similarity_score - second.similarity_score)
      | _ => false
    if fewCheck then true
    else
      let stableCheck : Bool :=
        decide (prev_candidates ≠ [])
          && decide (3 ≤ state.current_candidates.length)
          && decide (3 ≤ prev_candidates.length)
          && decide (3 ≤ state.qa_history.length)
          && decide ((state.current_candidates.take 3).map HSCode.code
              = (prev_candidates.take 3).map HSCode.code)
          && (match state.current_candidates with
              | top :: _ => decide ((0.75 : ℚ) < top.similarity_score)
              | [] => false)
      if stableCheck then true
      else false

/-- `product_indicators` table of `_candidates_seem_relevant`:
(category, keywords, expected HS chapters), in source (dict insertion)
order. -/
def product_indicators : List (String × List String × List String) :=
  [("food_beverage",
    (["juice", "drink", "beverage", "lemonade", "soda", "water", "coffee", "tea",
      "milk", "beer", "wine", "alcohol"],
     ["20", "21", "22", "04", "19"])),
   ("electronics",
    (["phone", "computer", "device", "electronic", "monitor", "screen", "display",
      "oled", "lcd", "led", "television", "tv", "radio", "camera"],
     ["85", "90", "84", "95"])),
   ("clothing_textiles",
    (["shirt", "pants", "clothing", "apparel", "fabric", "textile", "cotton",
      "wool", "garment"],
     ["61", "62", "63", "50", "51", "52", "53", "54", "55"])),
   ("chemicals",
    (["chemical", "acid", "compound", "pharmaceutical", "medicine", "drug"],
     ["28", "29", "30", "38"])),
   ("machinery",
    (["machine", "engine", "motor", "pump", "generator", "compressor"],
     ["84", "85"])),
   ("metals",
    (["steel", "iron", "aluminum", "copper", "metal", "alloy"],
     ["72", "73", "74", "75", "76", "78", "79"])),
   ("vehicles",
    (["car", "truck", "vehicle", "automobile", "motorcycle", "bicycle"],
     ["87", "89"])),
   ("furniture",
    (["chair", "table", "furniture", "bed", "desk", "cabinet"],
     ["94"])),
   ("books_paper",
    (["book", "paper", "document", "magazine", "newspaper"],
     ["48", "49"])),
   ("toys_games",
    (["toy", "game", "puzzle", "doll", "ball"],
     ["95"]))]

/-- Junk words ignored by `_semantic_relevance_check`. -/
def junk_words_check : List String :=
  ["test", "hello", "world", "example", "demo"]

/-- `_semantic_relevance_check(product_lower, candidates)`. -/
def semantic_relevance_check (product_lower : String) (candidates : List HSCode) : Bool :=
  let product_words := ((wordsOf product_lower).filter
    (fun w => decide (3 < w.length) && decide (w ∉ junk_words_check))).dedup
  if product_words = [] then true
  else
    let total_checked := min 5 candidates.length
    let relevant_count := (candidates.take total_checked).countP (fun c =>
      let candidate_desc_lower := lowerStr c.description
      let candidate_words := wordsOf candidate_desc_lower
      let word_matches := product_words.countP (fun pw =>
        strContains candidate_desc_lower pw
          || candidate_words.any (fun cw =>
               decide (3 < cw.length)
                 && (strContains cw pw || strContains pw cw)))
      decide (0 < word_matches) || decide ((0.7 : ℚ) < c.similarity_score))
    decide ((0.3 : ℚ) ≤ (relevant_count : ℚ) / (total_checked : ℚ))

/-- `ClaudeQuestionGenerator._candidates_seem_relevant`. -/
def candidates_seem_relevant (product_description : String)
    (candidates : List HSCode) : Bool :=
  if candidates = [] then false
  else
    let product_lower := lowerStr product_description
    match product_indicators.find?
        (fun ci => ci.2.1.any (fun kw => strContains product_lower kw)) with
    | some ci =>
      let expected_chapters := ci.2.2
      let total_checked := min 5 candidates.length
      let relevant_candidates := (candidates.take total_checked).countP (fun c =>
        decide ((if 2 ≤ c.code.length then c.code.take 2 else "") ∈ expected_chapters))
      decide ((0.4 : ℚ) ≤ (relevant_candidates : ℚ) / (total_checked : ℚ))
    | none => semantic_relevance_check product_lower candidates

/-- Parsed output of the Question/Conclusion Generator
(`_parse_structured_response`). -/
inductive GenResponse where
  | conclusion (content : String)
  | multiple_choice (content : String) (options : List String)
  | question (content : String)
deriving DecidableEq

/-- Outcome of one `classify_product` loop turn: a `return` from the
function, a convergence `break`, or another loop iteration with the state
and `prev_candidates` it will run on. -/
inductive TurnOutcome where
  | finished (result : Option HSCode)
  | converged (state : ConversationState)
  | ask (state : ConversationState) (prev_candidates : List HSCode)
deriving DecidableEq

/-- `code.replace(' ', '').replace('.', '')` as used when matching a
conclusion's suggested code against the candidates. -/
def normCode (s : String) : String :=
  String.mk (s.data.filter (fun c => c ≠ ' ' && c ≠ '.'))

/-- Search phase of one `classify_product` loop turn: bump the iteration,
let the Query Synthesizer build a query (`generate_smart_query`, an LLM
oracle), run the search, and — when the results exist but fail the
`_candidates_seem_relevant` pre-check — retry once with a resynthesised
query, keeping the retry results only if they pass the pre-check.
`search` stands for the success path of `search_hs_codes`. -/
def classify_search_phase
    (similarity_threshold : ℚ)
    (generate_smart_query : ConversationState → Option (List HSCode) → String)
    (search : String → ℚ → List QA → List HSCode)
    (state : ConversationState) : ConversationState :=
  let state1 := { state with iteration := state.iteration + 1 }
  let claude_query := generate_smart_query state1
    (if 1 < state1.iteration then some state1.current_candidates else none)
  let cands := search claude_query similarity_threshold state1.qa_history
  let state2 := { state1 with current_candidates := cands }
  if cands ≠ [] &&
      !(candidates_seem_relevant state2.product_description cands) then
    let retry_query := generate_smart_query state2 (some cands)
    if retry_query ≠ claude_query then
      let retry_candidates := search retry_query similarity_threshold state2.qa_history
      if retry_candidates ≠ [] &&
          candidates_seem_relevant state2.product_description retry_candidates then
        { state2 with current_candidates := retry_candidates }
      else state2
    else state2
  else state2

/-- Decision phase of one `classify_product` loop turn: fail on an empty
candidate set, break on convergence, otherwise dispatch on the generator's
response.  A conclusion is returned directly — via the code extracted from
its text (`extract_code` models the `re.search` glue) when it names a
candidate, else via the top candidate; a question or multiple-choice
appends the collected answer to the history and loops. -/
def classify_decision_phase
    (max_iterations : ℕ)
    (generate_question : ConversationState → GenResponse)
    (extract_code : String → Option String)
    (get_answer : String → String)
    (state : ConversationState) (prev_candidates : List HSCode) : TurnOutcome :=
  if state.current_candidates = [] then .finished none
  else if check_convergence max_iterations state prev_candidates then .converged state
  else
    match generate_question state with
    | .conclusion content =>
      let viaCode : Option HSCode :=
        match extract_code content with
        | some suggested =>
          state.current_candidates.find?
            (fun c => normCode c.code = normCode suggested)
        | none => none
      (match viaCode with
       | some cand => .finished (some cand)
       | none =>
         match state.current_candidates with
         | top :: _ => .finished (some top)
         | [] => .ask state state.current_candidates)
    | .multiple_choice q _opts =>
      let answer := get_answer q
      .ask { state with qa_history := state.qa_history ++ [⟨q, answer⟩] }
        state.current_candidates
    | .question q =>
      let answer := get_answer q
      .ask { state with qa_history := state.qa_history ++ [⟨q, answer⟩] }
        state.current_candidates

/-- One full turn of the `while True` loop in
`HSCodeClassifier.classify_product`. -/
def classify_turn
    (max_iterations : ℕ) (similarity_threshold : ℚ)
    (generate_smart_query : ConversationState → Option (List HSCode) → String)
    (search : String → ℚ → List QA → List HSCode)
    (generate_question : ConversationState → GenResponse)
    (extract_code : String → Option String)
    (get_answer : String → String)
    (state : ConversationState) (prev_candidates : List HSCode) : TurnOutcome :=
  classify_decision_phase max_iterations generate_question extract_code get_answer
    (classify_search_phase similarity_threshold generate_smart_query search state)
    prev_candidates

/-- C1: the spec says convergence is never permitted before 2 iterations
have run, however confident the iteration-1 candidates look.  The code's
own comment agrees ("NEVER converge too early - force at least 2
iterations even with good results"), but the guard sits after the
early-return confidence checks and both of its branches return `False`,
so it is dead code: a single candidate scoring 0.95 at iteration 1 (below
the default `max_iterations = 6`) converges.  This theorem evaluates the
embedded `check_convergence` at that failing input. -/
theorem C1_single_high_confidence_converges_at_iteration_one :
    check_convergence 6
      ⟨"fresh apples", [], [⟨"0808", "apples, fresh", 0.95⟩], 1⟩ [] = true := by
  norm_num [check_convergence]

/-- C6: the effective threshold is `min (base + 0.2) 0.8` when more than 50
scores meet the base threshold, otherwise `min (base + 0.1) 0.75` when more
than 20 meet it, otherwise the base threshold itself. -/
theorem C6_adaptive_threshold_formula (sims : List ℚ) (base : ℚ) :
    get_adaptive_threshold sims base =
      if 50 < sims.countP (fun s => decide (base ≤ s)) then min (base + 0.2) (0.8 : ℚ)
      else if 20 < sims.countP (fun s => decide (base ≤ s)) then min (base + 0.1) (0.75 : ℚ)
      else base := by
  unfold get_adaptive_threshold
  dsimp only
  split_ifs
  · exact min_comm _ _
  · exact min_comm _ _
  · rfl

/-- C8: with exactly two candidates and the iteration strictly between 2 and
`max_iterations`, `check_convergence` returns true iff the top score exceeds
0.85 and the top-minus-second gap exceeds 0.2 (both strictly, so the
boundary values 0.85 and 0.2 do not converge, and [0.83, 0.80] does not). -/
theorem C8_two_candidate_convergence_iff (max_iterations : ℕ)
    (state : ConversationState) (prev : List HSCode) (c1 c2 : HSCode)
    (hc : state.current_candidates = [c1, c2])
    (_h2 : 2 ≤ state.iteration)
    (hlt : state.iteration < max_iterations) :
    (check_convergence max_iterations state prev = true) ↔
      ((0.85 : ℚ) < c1.similarity_score ∧
        (0.2 : ℚ) < c1.similarity_score - c2.similarity_score) := by
  have hni : ¬ (max_iterations ≤ state.iteration) := by omega
  simp [check_convergence, hc, hni]

/-- C8 witness: a concrete two-candidate state with scores 0.9 and 0.6 at
iteration 2 converges. -/
theorem C8_two_candidate_convergence_iff_witness :
    check_convergence 6 ⟨"p", [], [⟨"a", "x", 0.9⟩, ⟨"b", "y", 0.6⟩], 2⟩ [] = true :=
  (C8_two_candidate_convergence_iff 6 ⟨"p", [], [⟨"a", "x", 0.9⟩, ⟨"b", "y", 0.6⟩], 2⟩
    [] ⟨"a", "x", 0.9⟩ ⟨"b", "y", 0.6⟩ rfl (by norm_num) (by norm_num)).mpr
    (by norm_num)

/-- C10: the "raised" adaptive threshold can be strictly lower than the
caller's base threshold: with a base above 0.75 and 21..50 qualifying
scores the effective threshold is exactly 0.75, and with a base above 0.8
and more than 50 qualifying scores it is exactly 0.8 — both below the
base. -/
theorem C10_adaptive_threshold_can_drop_below_base :
    (∀ (sims : List ℚ) (base : ℚ), (0.75 : ℚ) < base →
      20 < sims.countP (fun s => decide (base ≤ s)) →
      sims.countP (fun s => decide (base ≤ s)) ≤ 50 →
      get_adaptive_threshold sims base = (0.75 : ℚ) ∧
        get_adaptive_threshold sims base < base) ∧
    (∀ (sims : List ℚ) (base : ℚ), (0.8 : ℚ) < base →
      50 < sims.countP (fun s => decide (base ≤ s)) →
      get_adaptive_threshold sims base = (0.8 : ℚ) ∧
        get_adaptive_threshold sims base < base) := by
  constructor
  · intro sims base hb h20 h50
    unfold get_adaptive_threshold
    dsimp only
    rw [if_neg (by omega), if_pos h20]
    constructor
    · exact min_eq_left (by linarith)
    · rw [min_eq_left (by linarith)]; linarith
  · intro sims base hb h50
    unfold get_adaptive_threshold
    dsimp only
    rw [if_pos h50]
    constructor
    · exact min_eq_left (by linarith)
    · rw [min_eq_left (by linarith)]; linarith

/-- C10 witness: 21 scores of 0.95 against base threshold 0.9 give effective
threshold 0.75, strictly below the base. -/
theorem C10_adaptive_threshold_can_drop_below_base_witness :
    get_adaptive_threshold
      [0.95, 0.95, 0.95, 0.95, 0.95, 0.95, 0.95, 0.95, 0.95, 0.95, 0.95,
       0.95, 0.95, 0.95, 0.95, 0.95, 0.95, 0.95, 0.95, 0.95, 0.95] (0.9 : ℚ)
      = (0.75 : ℚ) ∧
    get_adaptive_threshold
      [0.95, 0.95, 0.95, 0.95, 0.95, 0.95, 0.95, 0.95, 0.95, 0.95, 0.95,
       0.95, 0.95, 0.95, 0.95, 0.95, 0.95, 0.95, 0.95, 0.95, 0.95] (0.9 : ℚ)
      < (0.9 : ℚ) :=
  C10_adaptive_threshold_can_drop_below_base.1 _ _ (by norm_num)
    (by norm_num [List.countP_cons, List.countP_nil])
    (by norm_num [List.countP_cons, List.countP_nil])

/-- C3 (amended): when the sentence-transformer model is unavailable but
embeddings are loaded, the API server's `search_similar_codes` degrades to
an empty match list; but when embeddings have not been computed/loaded at
all, both `search_hs_codes` and `search_similar_codes` raise `ValueError`
rather than returning an empty sequence. -/
theorem C3_model_unavailable_vs_missing_embeddings :
    (∀ (st : HybridSearch) (f : String → List ℚ) (q : String) (k : ℕ) (t : ℚ)
      (emb : List (List ℚ)), st.embeddings = some emb → st.model_available = false →
      search_similar_codes st f q k t = Except.ok []) ∧
    (∀ (st : SemanticSearch) (f : String → List ℚ) (q : String) (t : ℚ)
      (h : List QA), st.embeddings = none →
      search_hs_codes st f q t h
        = Except.error "Embeddings not computed. Call compute_embeddings() first.") ∧
    (∀ (st : HybridSearch) (f : String → List ℚ) (q : String) (k : ℕ) (t : ℚ),
      st.embeddings = none →
      search_similar_codes st f q k t
        = Except.error "Embeddings not loaded. Call load_embeddings() first.") := by
  refine ⟨?_, ?_, ?_⟩
  · intro st f q k t emb hemb hmodel
    unfold search_similar_codes
    rw [hemb]
    simp [hmodel]
  · intro st f q t h hemb
    unfold search_hs_codes
    rw [hemb]
  · intro st f q k t hemb
    unfold search_similar_codes
    rw [hemb]

/-- C3 witness: a concrete unavailable-model state returns `ok []`, and a
concrete state without embeddings errors in both engines. -/
theorem C3_model_unavailable_vs_missing_embeddings_witness :
    search_similar_codes ⟨some [[1]], false⟩ (fun _ => []) "apple juice" 10 0.3
      = Except.ok [] ∧
    search_hs_codes ⟨[], none⟩ (fun _ => []) "apple juice" 0.6 []
      = Except.error "Embeddings not computed. Call compute_embeddings() first." ∧
    search_similar_codes ⟨none, true⟩ (fun _ => []) "apple juice" 10 0.3
      = Except.error "Embeddings not loaded. Call load_embeddings() first." :=
  ⟨C3_model_unavailable_vs_missing_embeddings.1 _ _ _ _ _ [[1]] rfl rfl,
   C3_model_unavailable_vs_missing_embeddings.2.1 _ _ _ _ _ rfl,
   C3_model_unavailable_vs_missing_embeddings.2.2 _ _ _ _ _ rfl⟩

/-- C3 counterexample: the claim says a search with no computed/loaded
embeddings returns an empty sequence without raising; in fact
`search_hs_codes` raises `ValueError` (embedded as `Except.error`). -/
theorem C3_missing_embeddings_raises :
    search_hs_codes ⟨[], none⟩ (fun _ => []) "laptop" 0.6 []
      = Except.error "Embeddings not computed. Call compute_embeddings() first." ∧
    search_hs_codes ⟨[], none⟩ (fun _ => []) "laptop" 0.6 [] ≠ Except.ok [] := by
  constructor
  · rfl
  · intro h
    simp [search_hs_codes] at h

/-- Row count produced by the batched encoding: one embedding row per text. -/
theorem toBatches_encode_length (encode : String → List ℚ) (texts : List String) :
    (((toBatches texts).map (fun b => b.map encode)).flatten).length = texts.length := by
  induction texts using toBatches.induct with
  | case1 => simp [toBatches]
  | case2 t ts ih =>
    rw [toBatches]
    simp only [List.map_cons, List.flatten_cons, List.length_append, List.length_map,
      List.length_cons, List.length_take, ih, List.length_drop]
    omega

/-- C5 (amended): when `compute_embeddings` actually computes (no usable
cache, or `force_recompute`), the embedding matrix has exactly one row per
leaf node, in leaf order; but when it loads from a cache file — whether in
cached-only mode or not — it returns the cached matrix as-is, with no
validation of its row count against the leaf list. -/
theorem C5_row_count_compute_vs_load :
    (∀ (leaf_nodes : List LeafInfo) (encode : String → List ℚ)
      (cache : Option (List (List ℚ))) (embedding_file : Option String)
      (force_recompute : Bool),
      (cache = none ∨ force_recompute = true) →
      ∃ m, compute_embeddings leaf_nodes encode cache embedding_file false force_recompute
            = Except.ok m ∧ m.length = leaf_nodes.length) ∧
    (∀ (leaf_nodes : List LeafInfo) (encode : String → List ℚ)
      (m : List (List ℚ)) (embedding_file : Option String),
      compute_embeddings leaf_nodes encode (some m) embedding_file false false
        = Except.ok m) ∧
    (∀ (leaf_nodes : List LeafInfo) (encode : String → List ℚ)
      (m : List (List ℚ)) (f : String) (force_recompute : Bool),
      compute_embeddings leaf_nodes encode (some m) (some f) true force_recompute
        = Except.ok m) := by
  refine ⟨?_, ?_, ?_⟩
  · intro leaf_nodes encode cache embedding_file force_recompute hcase
    refine ⟨((toBatches (leaf_nodes.map embedText)).map (fun b => b.map encode)).flatten,
      ?_, by rw [toBatches_encode_length, List.length_map]⟩
    rcases hcase with h | h
    · subst h; rfl
    · subst h
      unfold compute_embeddings
      cases cache with
      | none => rfl
      | some m => rfl
  · intro leaf_nodes encode m embedding_file
    rfl
  · intro leaf_nodes encode m f force_recompute
    rfl

/-- C5 witness: computing for two leaf nodes yields a two-row matrix, and a
cache file containing a single row is returned as-is. -/
theorem C5_row_count_compute_vs_load_witness :
    (∃ m, compute_embeddings [⟨"01", "a", "r → a"⟩, ⟨"02", "b", "r → b"⟩]
        (fun _ => [1, 2]) none none false false = Except.ok m ∧
        m.length = ([⟨"01", "a", "r → a"⟩, ⟨"02", "b", "r → b"⟩] : List LeafInfo).length) ∧
    compute_embeddings [⟨"01", "a", "r → a"⟩, ⟨"02", "b", "r → b"⟩]
        (fun _ => [1, 2]) (some [[5]]) (some "cache.pkl") false false
      = Except.ok [[5]] :=
  ⟨C5_row_count_compute_vs_load.1 [⟨"01", "a", "r → a"⟩, ⟨"02", "b", "r → b"⟩]
      (fun _ => [1, 2]) none none false (Or.inl rfl),
   C5_row_count_compute_vs_load.2.1 [⟨"01", "a", "r → a"⟩, ⟨"02", "b", "r → b"⟩]
      (fun _ => [1, 2]) [[5]] (some "cache.pkl")⟩

/-- C5 counterexample: the claim says the row count equals the leaf count
after every `compute_embeddings` call, loads included; loading a stale
one-row cache against a three-leaf list returns a one-row matrix. -/
theorem C5_stale_cache_row_count_mismatch :
    compute_embeddings [⟨"01", "a", "a"⟩, ⟨"02", "b", "b"⟩, ⟨"03", "c", "c"⟩]
      (fun _ => [1]) (some [[1]]) (some "stale.pkl") false false
      = Except.ok [[1]] ∧
    ¬ ([[(1 : ℚ)]].length
        = ([⟨"01", "a", "a"⟩, ⟨"02", "b", "b"⟩, ⟨"03", "c", "c"⟩] : List LeafInfo).length) :=
  ⟨rfl, by simp⟩

/-- C7: on a list already filtered by the effective threshold and sorted by
descending final score, harsh filtering returns it unchanged when it has at
most 10 entries, caps it at 25 (a prefix) when it has 11-30 entries, and
when it has more than 30 entries returns only candidates within 0.15 of the
top score, capped at 20; the output is always sorted by descending final
score. -/
theorem C7_harsh_filtering_behaviour (results : List HSCode) (q : String)
    (hs : results.Pairwise (fun a b => b.similarity_score ≤ a.similarity_score)) :
    (results.length ≤ 10 → apply_harsh_filtering results q = results) ∧
    (10 < results.length → results.length ≤ 30 →
      apply_harsh_filtering results q = results.take 25 ∧
      (apply_harsh_filtering results q).length ≤ 25) ∧
    (∀ top rest, results = top :: rest → 30 < results.length →
      apply_harsh_filtering results q =
        (results.filter
          (fun r => decide (top.similarity_score - 0.15 ≤ r.similarity_score))).take 20 ∧
      (apply_harsh_filtering results q).length ≤ 20 ∧
      (∀ r ∈ apply_harsh_filtering results q,
        r ∈ results ∧ top.similarity_score - 0.15 ≤ r.similarity_score)) ∧
    (apply_harsh_filtering results q).Pairwise
      (fun a b => b.similarity_score ≤ a.similarity_score) := by
  have hsub : (apply_harsh_filtering results q).Sublist results := by
    unfold apply_harsh_filtering
    split_ifs with h1 h2
    · exact List.Sublist.refl _
    · cases results with
      | nil => simp
      | cons top rest =>
        exact (List.take_sublist _ _).trans (List.filter_sublist _)
    · exact List.take_sublist _ _
  refine ⟨?_, ?_, ?_, hs.sublist hsub⟩
  · intro h
    unfold apply_harsh_filtering
    rw [if_pos h]
  · intro h10 h30
    unfold apply_harsh_filtering
    rw [if_neg (by omega), if_neg (by omega)]
    refine ⟨rfl, ?_⟩
    simp [List.length_take]
  · intro top rest hres hgt
    subst hres
    have heq : apply_harsh_filtering (top :: rest) q =
        ((top :: rest).filter
          (fun r => decide (top.similarity_score - 0.15 ≤ r.similarity_score))).take 20 := by
      unfold apply_harsh_filtering
      rw [if_neg (by omega), if_pos hgt]
    refine ⟨heq, ?_, ?_⟩
    · rw [heq]
      simp [List.length_take]
    · intro r hr
      rw [heq] at hr
      have hmem := List.take_subset _ _ hr
      have := List.mem_filter.mp hmem
      exact ⟨this.1, of_decide_eq_true this.2⟩

/-- C7 witness: a concrete sorted two-candidate list passes through harsh
filtering unchanged, and the output is still sorted. -/
theorem C7_harsh_filtering_behaviour_witness :
    apply_harsh_filtering [⟨"a", "x", 0.9⟩, ⟨"b", "y", 0.8⟩] "q"
      = [⟨"a", "x", 0.9⟩, ⟨"b", "y", 0.8⟩] :=
  (C7_harsh_filtering_behaviour [⟨"a", "x", 0.9⟩, ⟨"b", "y", 0.8⟩] "q"
    (by simp [List.pairwise_cons]; norm_num)).1 (by norm_num)

/-- Keyword penalties are sums of non-negative contributions. -/
theorem negativeWordPenalty_nonneg (ws : List String) (t p : String) :
    0 ≤ negativeWordPenalty ws t p := by
  induction ws with
  | nil => simp [negativeWordPenalty]
  | cons w rest ih =>
    rw [negativeWordPenalty]
    have : (0 : ℚ) ≤ (if 2 < w.length then
        if strContains t w then (0.4 : ℚ)
        else if strContains p w then (0.2 : ℚ) else 0
      else 0) := by
      split_ifs <;> norm_num
    linarith

/-- Contradiction-pair penalties are sums of non-negative contributions. -/
theorem contradictionPairPenalty_nonneg (opps : List String) (t p : String) :
    0 ≤ contradictionPairPenalty opps t p := by
  induction opps with
  | nil => simp [contradictionPairPenalty]
  | cons c rest ih =>
    rw [contradictionPairPenalty]
    have : (0 : ℚ) ≤ (if strContains t c || strContains p c then (0.6 : ℚ) else 0) := by
      split_ifs <;> norm_num
    linarith

/-- The contradiction part of the penalty is non-negative. -/
theorem contradictionPenalty_nonneg (cs : List (String × List String)) (t p : String) :
    0 ≤ contradictionPenalty cs t p := by
  induction cs with
  | nil => simp [contradictionPenalty]
  | cons c rest ih =>
    rw [contradictionPenalty]
    have := contradictionPairPenalty_nonneg c.2 t p
    linarith

/-- Every Q&A exchange contributes a non-negative penalty. -/
theorem qaPenaltyOfExchange_nonneg (qa : QA) (combined : String) :
    0 ≤ qaPenaltyOfExchange qa combined := by
  unfold qaPenaltyOfExchange
  dsimp only
  refine add_nonneg (add_nonneg (add_nonneg ?_ ?_) ?_) ?_
  · refine ite_nonneg ?_ le_rfl
    refine ite_nonneg (by positivity) ?_
    exact ite_nonneg (by positivity) le_rfl
  · exact ite_nonneg (ite_nonneg (by norm_num) le_rfl) le_rfl
  · exact ite_nonneg (ite_nonneg (by norm_num) le_rfl) le_rfl
  · exact ite_nonneg (ite_nonneg (by norm_num) le_rfl) le_rfl

/-- The whole Q&A contradiction penalty is non-negative. -/
theorem calculate_qa_contradiction_penalty_nonneg (qa_history : List QA)
    (node_text node_path : String) :
    0 ≤ calculate_qa_contradiction_penalty qa_history node_text node_path := by
  unfold calculate_qa_contradiction_penalty
  dsimp only
  refine List.sum_nonneg ?_
  intro x hx
  obtain ⟨qa, _, rfl⟩ := List.mem_map.mp hx
  exact qaPenaltyOfExchange_nonneg qa _

/-- One contradiction pair with an opposite present in the node text or path
contributes at least 0.6. -/
theorem contradictionPairPenalty_ge (opps : List String) (t p o : String)
    (ho : o ∈ opps) (hin : (strContains t o || strContains p o) = true) :
    (0.6 : ℚ) ≤ contradictionPairPenalty opps t p := by
  induction opps with
  | nil => cases ho
  | cons c rest ih =>
    rw [contradictionPairPenalty]
    rcases List.mem_cons.mp ho with h | h
    · subst h
      rw [if_pos hin]
      have := contradictionPairPenalty_nonneg rest t p
      linarith
    · have h1 : (0 : ℚ) ≤ (if strContains t c || strContains p c then (0.6 : ℚ) else 0) :=
        ite_nonneg (by norm_num) le_rfl
      have := ih h
      linarith

/-- Core clamp inequality: starting from a positive clamped score, adding at
least 0.6 of penalty strictly lowers the clamped score (the base similarity
is a cosine value, hence at most 1, and the existing penalty is
non-negative). -/
theorem finalScoreOf_strict_decrease (base boost pen d : ℚ)
    (hb : base ≤ 1) (hpen : 0 ≤ pen) (hd : (0.6 : ℚ) ≤ d)
    (hpos : 0 < finalScoreOf base boost pen) :
    finalScoreOf base boost (pen + d) < finalScoreOf base boost pen := by
  have hble : min boost (0.4 : ℚ) ≤ 0.4 := min_le_right _ _
  obtain ⟨A, hA⟩ : ∃ A : ℚ, A = base + min boost (0.4 : ℚ) - pen := ⟨_, rfl⟩
  have harg : base + min boost (0.4 : ℚ) - (pen + d) = A - d := by rw [hA]; ring
  have hf1 : finalScoreOf base boost pen = max 0 (min 1 A) := by
    rw [finalScoreOf, hA]
  have hf2 : finalScoreOf base boost (pen + d) = max 0 (min 1 (A - d)) := by
    rw [finalScoreOf, harg]
  rw [hf1] at hpos
  rw [hf1, hf2]
  have hA14 : A ≤ 1.4 := by rw [hA]; linarith
  have hpos' : 0 < min 1 A := by
    rcases lt_max_iff.mp hpos with h | h
    · exact absurd h (lt_irrefl 0)
    · exact h
  have hApos : 0 < A := lt_of_lt_of_le hpos' (min_le_right 1 A)
  have hstep : A - d ≤ 1 := by linarith
  rw [min_eq_right hstep, max_eq_right hpos'.le]
  rcases le_total A 1 with h1 | h1
  · rw [min_eq_right h1]
    rcases le_total (A - d) 0 with h2 | h2
    · rw [max_eq_left h2]; exact hApos
    · rw [max_eq_right h2]; linarith
  · rw [min_eq_left h1]
    have hle : max 0 (A - d) ≤ 0.8 := max_le (by norm_num) (by linarith)
    linarith

/-- C4 (amended): adding a positive query term that is a key of the
technology-contradiction table, one of whose opposites occurs in the
candidate's label or path, strictly decreases the candidate's final
post-clamp score — provided the score without the term was positive (at the
clamp floor 0 the score merely stays 0) and all other boosts and penalties
are held fixed, with the same Q&A history and a base cosine similarity of
at most 1 on both sides. -/
theorem C4_contradiction_penalty_strict_decrease (base : ℚ) (f f' : QueryFeatures)
    (qa : List QA) (w o : String) (opps : List String) (t p : String)
    (hbase : base ≤ 1)
    (_hw : List.lookup w tech_contradictions = some opps)
    (hpair : f'.contradictions = (w, opps) :: f.contradictions)
    (hneg : f'.negative = f.negative)
    (hboost : calculate_keyword_boost f'.positive t p
      = calculate_keyword_boost f.positive t p)
    (ho : o ∈ opps) (hin : (strContains t o || strContains p o) = true)
    (hpos : 0 < nodeAdjustedScore base f qa t p) :
    nodeAdjustedScore base f' qa t p < nodeAdjustedScore base f qa t p := by
  unfold nodeAdjustedScore at *
  dsimp only at *
  rw [hboost]
  unfold calculate_negative_penalty at *
  rw [hpair, hneg, contradictionPenalty]
  set qaPart := (if qa ≠ [] then calculate_qa_contradiction_penalty qa t p else 0) with hqa
  have hqann : 0 ≤ qaPart := by
    rw [hqa]
    exact ite_nonneg (calculate_qa_contradiction_penalty_nonneg qa t p) le_rfl
  set pen := negativeWordPenalty f.negative t p
    + contradictionPenalty f.contradictions t p + qaPart with hpendef
  have hneq : negativeWordPenalty f.negative t p
      + (contradictionPairPenalty opps t p + contradictionPenalty f.contradictions t p)
      + qaPart = pen + contradictionPairPenalty opps t p := by
    rw [hpendef]; ring
  rw [hneq]
  have hpennn : 0 ≤ pen := by
    rw [hpendef]
    have h1 := negativeWordPenalty_nonneg f.negative t p
    have h2 := contradictionPenalty_nonneg f.contradictions t p
    linarith
  exact finalScoreOf_strict_decrease base _ pen _ hbase hpennn
    (contradictionPairPenalty_ge opps t p o ho hin) hpos

/-- C4 counterexample: the claimed strict decrease fails at the clamp floor.
With base similarity 0 on both sides, adding the term "oled" to an empty
query against a candidate whose label contains the opposite "lcd" leaves
the post-clamp score at 0 — not a strict decrease. -/
theorem C4_no_strict_decrease_at_clamp_floor :
    ¬ (nodeAdjustedScore 0 (extract_query_features (lowerStr "oled")) []
        (lowerStr "lcd screen") (lowerStr "")
      < nodeAdjustedScore 0 (extract_query_features (lowerStr "")) []
        (lowerStr "lcd screen") (lowerStr "")) := by
  have h1 : nodeAdjustedScore 0 (extract_query_features (lowerStr "oled")) []
      (lowerStr "lcd screen") (lowerStr "") = 0 := by
    norm_num +decide [nodeAdjustedScore, extract_query_features, extractFeaturesAux,
      finalScoreOf, calculate_keyword_boost, calculate_negative_penalty,
      negativeWordPenalty, contradictionPenalty, contradictionPairPenalty,
      wordsOf, splitWSAux, cleanWord, get_plural_forms, tech_contradictions,
      lowerStr, strContains, strEndsWith, negative_indicators, isPySpace]
  have h2 : nodeAdjustedScore 0 (extract_query_features (lowerStr "")) []
      (lowerStr "lcd screen") (lowerStr "") = 0 := by
    norm_num +decide [nodeAdjustedScore, extract_query_features, extractFeaturesAux,
      finalScoreOf, calculate_keyword_boost, calculate_negative_penalty,
      negativeWordPenalty, contradictionPenalty, contradictionPairPenalty,
      wordsOf, splitWSAux, cleanWord, lowerStr, strContains]
  rw [h1, h2]
  exact lt_irrefl 0

/-- C4 witness: adding "oled" to the query "television" against a candidate
labelled "lcd apparatus" (base similarity 0.7) strictly lowers the final
score, instantiating the amended monotonicity theorem on real query
features. -/
theorem C4_contradiction_penalty_strict_decrease_witness :
    nodeAdjustedScore 0.7 (extract_query_features "oled television") []
        "lcd apparatus" ""
      < nodeAdjustedScore 0.7 (extract_query_features "television") []
        "lcd apparatus" "" := by
  refine C4_contradiction_penalty_strict_decrease 0.7
    (extract_query_features "television") (extract_query_features "oled television")
    [] "oled" "lcd" ["lcd", "led", "plasma", "crt"] "lcd apparatus" ""
    (by norm_num) (by decide) (by decide) (by decide) ?_ (by decide) (by decide) ?_
  · norm_num +decide [extract_query_features, extractFeaturesAux, wordsOf, splitWSAux,
      cleanWord, get_plural_forms, tech_contradictions, negative_indicators,
      calculate_keyword_boost, strContains, strEndsWith, isPySpace]
  · norm_num +decide [nodeAdjustedScore, extract_query_features, extractFeaturesAux,
      finalScoreOf, calculate_keyword_boost, calculate_negative_penalty,
      negativeWordPenalty, contradictionPenalty, contradictionPairPenalty,
      wordsOf, splitWSAux, cleanWord, get_plural_forms, tech_contradictions,
      lowerStr, strContains, strEndsWith, negative_indicators, isPySpace]

/-- C2 (amended): the relevance pre-check only drives the single query
retry inside the search phase; it never gates conclusion acceptance.  In
any loop turn whose state reaches the decision phase with nonempty,
non-converged candidates that the pre-check deems NOT relevant, a
Conclusion from the generator still terminates the classification with one
of those candidates. -/
theorem C2_conclusion_accepted_despite_irrelevance
    (max_iterations : ℕ)
    (generate_question : ConversationState → GenResponse)
    (extract_code : String → Option String) (get_answer : String → String)
    (state : ConversationState) (prev_candidates : List HSCode) (content : String)
    (hne : ¬ (state.current_candidates = []))
    (hnc : check_convergence max_iterations state prev_candidates = false)
    (_hirrel : candidates_seem_relevant state.product_description
        state.current_candidates = false)
    (hg : generate_question state = GenResponse.conclusion content) :
    ∃ c, c ∈ state.current_candidates ∧
      classify_decision_phase max_iterations generate_question extract_code get_answer
          state prev_candidates
        = TurnOutcome.finished (some c) := by
  unfold classify_decision_phase
  rw [if_neg hne, hnc, hg]
  simp only [Bool.false_eq_true, if_false]
  cases hx : extract_code content with
  | some suggested =>
    dsimp only
    cases hfind : state.current_candidates.find?
        (fun c => normCode c.code = normCode suggested) with
    | some cand =>
      exact ⟨cand, List.mem_of_find?_eq_some hfind, rfl⟩
    | none =>
      cases hcand : state.current_candidates with
      | nil => exact absurd hcand hne
      | cons top rest =>
        exact ⟨top, List.mem_cons_self top rest, rfl⟩
  | none =>
    dsimp only
    cases hcand : state.current_candidates with
    | nil => exact absurd hcand hne
    | cons top rest =>
      exact ⟨top, List.mem_cons_self top rest, rfl⟩

/-- C2 counterexample: a concrete turn for the product "juice" in which the
only candidate (chapter 85, a smartphone code) fails the relevance
pre-check, yet the generator's Conclusion is accepted and the orchestrator
terminates on it instead of asking a further question. -/
theorem C2_turn_terminates_on_conclusion_with_irrelevant_candidates :
    classify_turn 6 0.6
        (fun _ _ => "smartphone query")
        (fun _ _ _ => [⟨"85171200", "smartphones", 0.9⟩])
        (fun _ => GenResponse.conclusion "classification complete")
        (fun _ => none)
        (fun _ => "")
        ⟨"juice", [], [], 0⟩ []
      = TurnOutcome.finished (some ⟨"85171200", "smartphones", 0.9⟩) ∧
    candidates_seem_relevant "juice" [⟨"85171200", "smartphones", 0.9⟩] = false := by
  have hrel : candidates_seem_relevant "juice" [⟨"85171200", "smartphones", 0.9⟩]
      = false := by
    norm_num +decide [candidates_seem_relevant, product_indicators, lowerStr,
      strContains]
  refine ⟨?_, hrel⟩
  have hsearch : classify_search_phase 0.6 (fun _ _ => "smartphone query")
      (fun _ _ _ => [⟨"85171200", "smartphones", 0.9⟩]) ⟨"juice", [], [], 0⟩
      = ⟨"juice", [], [⟨"85171200", "smartphones", 0.9⟩], 1⟩ := by
    unfold classify_search_phase
    simp
  have hconv : check_convergence 6 ⟨"juice", [], [⟨"85171200", "smartphones", 0.9⟩], 1⟩ []
      = false := by
    norm_num [check_convergence]
  unfold classify_turn
  rw [hsearch]
  unfold classify_decision_phase
  rw [if_neg (by simp), hconv]
  rfl

/-- C2 witness: the amended theorem instantiated on the post-search state of
the counterexample turn: nonempty irrelevant candidates plus a generator
Conclusion still finish with some candidate. -/
theorem C2_conclusion_accepted_despite_irrelevance_witness :
    ∃ c, c ∈ [(⟨"85171200", "smartphones", 0.9⟩ : HSCode)] ∧
      classify_decision_phase 6 (fun _ => GenResponse.conclusion "classification complete")
          (fun _ => none) (fun _ => "")
          ⟨"juice", [], [⟨"85171200", "smartphones", 0.9⟩], 1⟩ []
        = TurnOutcome.finished (some c) :=
  C2_conclusion_accepted_despite_irrelevance 6
    (fun _ => GenResponse.conclusion "classification complete")
    (fun _ => none) (fun _ => "")
    ⟨"juice", [], [⟨"85171200", "smartphones", 0.9⟩], 1⟩ [] "classification complete"
    (by simp)
    (by norm_num [check_convergence])
    (by norm_num +decide [candidates_seem_relevant, product_indicators, lowerStr,
      strContains])
    rfl

/-- Specification of the parent produced by the stack algorithm for row `i`:
`some p` means `p` is a previous row of strictly smaller level with no
smaller-level row after it (the stack top after popping), `none` means no
previous row has a strictly smaller level (the row becomes a new root). -/
def parentRel (f : ℕ → Int) (i : ℕ) : Option ℕ → Prop
  | some p => p < i ∧ f p < f i ∧ ∀ k, p < k → k < i → f i ≤ f k
  | none => ∀ j, j < i → f i ≤ f j

/-- Invariant of the ancestor stack after processing rows `0..i-1`: entries
are `(index, level)` pairs of processed rows, indices and levels strictly
decrease from the top (head), and the stack holds exactly those rows not
"shadowed" by a later row of less-or-equal level. -/
structure StackInv (f : ℕ → Int) (i : ℕ) (stack : List (ℕ × Int)) : Prop where
  pairs : ∀ q ∈ stack, q.1 < i ∧ q.2 = f q.1
  sorted : stack.Pairwise (fun a b => b.1 < a.1 ∧ b.2 < a.2)
  char : ∀ j, j < i → (((j, f j) ∈ stack) ↔ ∀ k, j < k → k < i → f j < f k)

/-- Popping never adds entries: the popped stack is a sublist. -/
theorem popGE_sublist (stack : List (ℕ × Int)) (L : Int) :
    (popGE stack L).Sublist stack := by
  induction stack with
  | nil => simp [popGE]
  | cons hd tl ih =>
    obtain ⟨j, lj⟩ := hd
    rw [popGE]
    split_ifs
    · exact ih.trans (List.sublist_cons_self _ _)
    · exact List.Sublist.refl _

/-- On a stack with strictly decreasing levels toward the bottom, popping
levels `≥ L` keeps exactly the entries with level `< L`. -/
theorem popGE_mem (stack : List (ℕ × Int)) (L : Int)
    (hsort : stack.Pairwise (fun a b => b.1 < a.1 ∧ b.2 < a.2)) (x : ℕ × Int) :
    x ∈ popGE stack L ↔ x ∈ stack ∧ x.2 < L := by
  induction stack with
  | nil => simp [popGE]
  | cons hd tl ih =>
    obtain ⟨j, lj⟩ := hd
    rw [popGE]
    split_ifs with hL
    · rw [ih (List.pairwise_cons.mp hsort).2]
      constructor
      · rintro ⟨hmem, hx⟩
        exact ⟨List.mem_cons_of_mem _ hmem, hx⟩
      · rintro ⟨hmem, hx⟩
        rcases List.mem_cons.mp hmem with rfl | hmem'
        · exact absurd hx (not_lt.mpr hL)
        · exact ⟨hmem', hx⟩
    · push_neg at hL
      constructor
      · intro hmem
        refine ⟨hmem, ?_⟩
        rcases List.mem_cons.mp hmem with rfl | hmem'
        · exact hL
        · have h := (List.pairwise_cons.mp hsort).1 x hmem'
          exact lt_trans h.2 hL
      · exact And.left

/-- If some processed row below `i` has level below `f i`, then the latest
such row is on the stack. -/
theorem stack_mem_of_smaller (f : ℕ → Int) (i : ℕ) (stack : List (ℕ × Int))
    (inv : StackInv f i stack) (j : ℕ) (hj : j < i) (hfj : f j < f i) :
    ∃ j', j ≤ j' ∧ j' < i ∧ f j' < f i ∧ (j', f j') ∈ stack := by
  have hji : j ≤ i - 1 := by omega
  have hPj' : f (Nat.findGreatest (fun m => f m < f i) (i - 1)) < f i := by
    have h := @Nat.findGreatest_spec j (fun m => f m < f i) _ (i - 1) hji hfj
    simpa using h
  have hj'le : Nat.findGreatest (fun m => f m < f i) (i - 1) ≤ i - 1 :=
    Nat.findGreatest_le _
  have hjle : j ≤ Nat.findGreatest (fun m => f m < f i) (i - 1) := by
    have h := @Nat.le_findGreatest j (fun m => f m < f i) _ (i - 1) hji hfj
    simpa using h
  have hj'lt : Nat.findGreatest (fun m => f m < f i) (i - 1) < i := by omega
  refine ⟨_, hjle, hj'lt, hPj', ?_⟩
  apply (inv.char _ hj'lt).mpr
  intro k hk1 hk2
  have hnk : ¬ (f k < f i) := by
    have h := @Nat.findGreatest_is_greatest k (fun m => f m < f i) _ (i - 1) hk1 (by omega)
    simpa using h
  exact lt_of_lt_of_le hPj' (not_lt.mp hnk)

/-- The head of the popped stack (or `none`) satisfies `parentRel`: it is
the most recent previous row of strictly smaller level, and absence of such
a head means no previous row qualifies. -/
theorem popGE_parent_spec (f : ℕ → Int) (i : ℕ) (stack : List (ℕ × Int))
    (inv : StackInv f i stack) :
    parentRel f i ((popGE stack (f i)).head?.map Prod.fst) := by
  cases hpop : popGE stack (f i) with
  | nil =>
    simp only [List.head?_nil, Option.map_none']
    intro j hj
    by_contra hcon
    push_neg at hcon
    obtain ⟨j', _, hj'lt, hfj', hmem⟩ := stack_mem_of_smaller f i stack inv j hj hcon
    have hmem2 : (j', f j') ∈ popGE stack (f i) :=
      (popGE_mem _ _ inv.sorted _).mpr ⟨hmem, hfj'⟩
    rw [hpop] at hmem2
    cases hmem2
  | cons hd tl =>
    simp only [List.head?_cons, Option.map_some']
    have hmem_hd : hd ∈ popGE stack (f i) := by
      rw [hpop]; exact List.mem_cons_self _ _
    have h1 := (popGE_mem _ _ inv.sorted _).mp hmem_hd
    have hp := inv.pairs hd h1.1
    refine ⟨hp.1, by rw [← hp.2]; exact h1.2, ?_⟩
    intro k hk1 hk2
    by_contra hcon
    push_neg at hcon
    obtain ⟨j', hkj', hj'lt, hfj', hmem⟩ := stack_mem_of_smaller f i stack inv k hk2 hcon
    have hmem' : (j', f j') ∈ popGE stack (f i) :=
      (popGE_mem _ _ inv.sorted _).mpr ⟨hmem, hfj'⟩
    rw [hpop] at hmem'
    have hsort' : (hd :: tl).Pairwise (fun a b => b.1 < a.1 ∧ b.2 < a.2) := by
      rw [← hpop]
      exact inv.sorted.sublist (popGE_sublist stack (f i))
    rcases List.mem_cons.mp hmem' with heq | hmem'' 
    · have hj'hd : hd.1 = j' := by rw [← heq]
      omega
    · have hlt := ((List.pairwise_cons.mp hsort').1 _ hmem'').1
      omega

/-- Pushing the new row and popping preserves the stack invariant. -/
theorem stackInv_step (f : ℕ → Int) (i : ℕ) (stack : List (ℕ × Int))
    (inv : StackInv f i stack) :
    StackInv f (i + 1) ((i, f i) :: popGE stack (f i)) := by
  have hmemiff := popGE_mem stack (f i) inv.sorted
  refine ⟨?_, ?_, ?_⟩
  · rintro q hq
    rcases List.mem_cons.mp hq with rfl | hq'
    · exact ⟨Nat.lt_succ_self i, rfl⟩
    · have h := (hmemiff q).mp hq'
      have hp := inv.pairs q h.1
      exact ⟨by omega, hp.2⟩
  · rw [List.pairwise_cons]
    refine ⟨?_, inv.sorted.sublist (popGE_sublist _ _)⟩
    intro q hq
    have h := (hmemiff q).mp hq
    have hp := inv.pairs q h.1
    exact ⟨hp.1, h.2⟩
  · intro j hj
    rcases Nat.lt_succ_iff_lt_or_eq.mp hj with hjlt | rfl
    · constructor
      · intro hmem
        rcases List.mem_cons.mp hmem with heq | hmem'
        · have : j = i := congrArg Prod.fst heq
          omega
        · have h := (hmemiff _).mp hmem'
          have hch := (inv.char j hjlt).mp h.1
          intro k hk1 hk2
          rcases Nat.lt_succ_iff_lt_or_eq.mp hk2 with hk | rfl
          · exact hch k hk1 hk
          · exact h.2
      · intro hall
        have hmem : (j, f j) ∈ stack :=
          (inv.char j hjlt).mpr (fun k hk1 hk2 => hall k hk1 (by omega))
        exact List.mem_cons_of_mem _
          ((hmemiff _).mpr ⟨hmem, hall i hjlt (Nat.lt_succ_self i)⟩)
    · constructor
      · intro _ k hk1 hk2
        omega
      · intro _
        exact List.mem_cons_self _ _

/-- The tree builder emits exactly one parent entry per input row. -/
theorem buildTreeAux_length (rem : List Row) : ∀ (i : ℕ) (stack : List (ℕ × Int)),
    (buildTreeAux rem i stack).length = rem.length := by
  induction rem with
  | nil => intro i stack; rfl
  | cons r rest ih =>
    intro i stack
    rw [buildTreeAux]
    simp [ih]

/-- Every entry of the builder's output satisfies `parentRel`, given the
stack invariant for the already-processed prefix. -/
theorem buildTreeAux_parentRel (f : ℕ → Int) (rem : List Row) :
    ∀ (i : ℕ) (stack : List (ℕ × Int)),
      (∀ k (hk : k < rem.length), (rem.get ⟨k, hk⟩).level = f (i + k)) →
      StackInv f i stack →
      ∀ k, k < rem.length →
        parentRel f (i + k) ((buildTreeAux rem i stack).getD k none) := by
  induction rem with
  | nil =>
    intro i stack _ _ k hk
    simp at hk
  | cons r rest ih =>
    intro i stack hmatch inv k hk
    have hr : r.level = f i := by
      have h0 := hmatch 0 (by simp)
      simpa using h0
    rw [buildTreeAux]
    cases k with
    | zero =>
      simp only [List.getD_cons_zero, Nat.add_zero]
      rw [hr]
      exact popGE_parent_spec f i stack inv
    | succ k' =>
      simp only [List.getD_cons_succ]
      have hmatch' : ∀ m (hm : m < rest.length),
          (rest.get ⟨m, hm⟩).level = f ((i + 1) + m) := by
        intro m hm
        have h := hmatch (m + 1) (by simpa using Nat.succ_lt_succ hm)
        have harith : i + (m + 1) = (i + 1) + m := by omega
        rw [← harith]
        simpa using h
      have hinv' : StackInv f (i + 1) ((i, r.level) :: popGE stack r.level) := by
        rw [hr]
        exact stackInv_step f i stack inv
      have hres := ih (i + 1) ((i, r.level) :: popGE stack r.level) hmatch' hinv' k'
        (by simpa using Nat.lt_of_succ_lt_succ (by simpa using hk))
      have harith : (i + 1) + k' = i + (k' + 1) := by omega
      rw [← harith]
      exact hres

/-- C9: `_build_tree` processes rows in one stack-based pass, never fails
(one parent entry per row), and assigns each row the most recent previous
row of strictly smaller level as parent — with rows having no such
predecessor (non-monotonic levels that empty the stack) becoming new
roots. -/
theorem C9_build_tree_stack_semantics (rows : List Row) :
    (build_tree rows).length = rows.length ∧
    ∀ i, i < rows.length →
      parentRel (levelAt rows) i ((build_tree rows).getD i none) := by
  constructor
  · exact buildTreeAux_length rows 0 []
  · intro i hi
    have hmatch : ∀ k (hk : k < rows.length),
        (rows.get ⟨k, hk⟩).level = levelAt rows (0 + k) := by
      intro k hk
      rw [Nat.zero_add, levelAt, List.getD_eq_get _ _ (by simpa using hk),
        List.get_map]
    have inv0 : StackInv (levelAt rows) 0 [] :=
      ⟨by simp, by simp, fun j hj => absurd hj (Nat.not_lt_zero j)⟩
    have h := buildTreeAux_parentRel (levelAt rows) rows 0 [] hmatch inv0 i hi
    simpa using h

/-- C9 witness: three rows with levels 0, 1, 1 — the third row pops its
level-1 sibling and attaches to the level-0 root; evaluated concretely and
instantiated through the characterisation theorem. -/
theorem C9_build_tree_stack_semantics_witness :
    build_tree [⟨0, "I", "Section I"⟩, ⟨1, "01", "Chapter 1"⟩, ⟨1, "02", "Chapter 2"⟩]
      = [none, some 0, some 0] ∧
    (build_tree [⟨0, "I", "Section I"⟩, ⟨1, "01", "Chapter 1"⟩, ⟨1, "02", "Chapter 2"⟩]).length
      = 3 ∧
    parentRel
      (levelAt [⟨0, "I", "Section I"⟩, ⟨1, "01", "Chapter 1"⟩, ⟨1, "02", "Chapter 2"⟩]) 2
      ((build_tree
        [⟨0, "I", "Section I"⟩, ⟨1, "01", "Chapter 1"⟩, ⟨1, "02", "Chapter 2"⟩]).getD 2 none) :=
  ⟨by decide,
   (C9_build_tree_stack_semantics _).1,
   (C9_build_tree_stack_semantics _).2 2 (by norm_num)⟩
